import Mathlib

/-!
Shallow embedding of the lx-brand `lxinit` network configuration engine
(`usr/src/lib/brand/lx/lx_init/lxinit.c`) and proofs about its behaviour.

The embedding covers:

* the netstack buffer normalizer (`lxi_kern_release_cmp`,
  `lxi_normalize_protocols`),
* the route message codec (`lxi_iface_gateway`),
* the static route feed line handling (`lxi_net_static_route`),
* logical interface allocation and literal address application
  (`lxi_getif`, `lxi_iface_ip`),
* DHCP request handling and the per-interface address block of
  `lxi_net_setup`.

External collaborators (ipadm, the dhcpagent IPC, sockets/ioctls) are
modelled as boolean/integer outcome oracles passed into each call, so the
theorems quantify over every possible collaborator behaviour.  C library
string routines (`strstr`, `strtok_r`, `atoi`, `inet_pton`) are modelled
with their standard semantics on Lean `String`s (fixed-size C buffers are
modelled as unbounded strings; the claims under study do not depend on
truncation).
-/

namespace LxInit

/-- Does `needle` occur at the very start of `hay`?  (Character-list
helper for the `strstr` model.) -/
def startsWithChars : List Char → List Char → Bool
  | [], _ => true
  | _ :: _, [] => false
  | n :: ns, h :: hs => n == h && startsWithChars ns hs

/-- Does `needle` occur as a contiguous substring of the character list? -/
def hasSubstrChars (needle : List Char) : List Char → Bool
  | [] => startsWithChars needle []
  | h :: hs => startsWithChars needle (h :: hs) || hasSubstrChars needle hs

/-- Model of C `strstr(hay, needle) != NULL`: `needle` occurs as a
contiguous substring of `hay`. -/
def strContains (hay needle : String) : Bool :=
  hasSubstrChars needle.toList hay.toList

/-- Split a character list at every occurrence of `delim`, accumulating
the current field in reverse. -/
def splitOnCharAux (delim : Char) : List Char → List Char → List String
  | [], acc => [⟨acc.reverse⟩]
  | c :: cs, acc =>
    if c = delim then ⟨acc.reverse⟩ :: splitOnCharAux delim cs []
    else splitOnCharAux delim cs (c :: acc)

/-- Split a string at every occurrence of a single delimiter character
(the field scan underlying both the `strtok_r` and the `inet_pton`
models). -/
def splitOnChar (delim : Char) (s : String) : List String :=
  splitOnCharAux delim s.toList []

/-- Model of iterating `strtok_r(s, ",")` to exhaustion: the non-empty
comma-separated tokens of `s`, in order (`strtok_r` skips empty fields). -/
def strtokComma (s : String) : List String :=
  (splitOnChar ',' s).filter fun t => decide (t ≠ "")

/-- Decimal accumulation for the `atoi` model: consume leading digits,
ignore everything from the first non-digit on. -/
def atoiDigits : List Char → Nat → Nat
  | c :: cs, acc =>
    if c.isDigit then atoiDigits cs (acc * 10 + (c.toNat - 48)) else acc
  | [], acc => acc

/-- Model of C `atoi`: optional leading whitespace, an optional sign, then
a (possibly empty) run of digits; a non-numeric string parses as 0. -/
def atoi (s : String) : Int :=
  match s.toList.dropWhile Char.isWhitespace with
  | '-' :: cs => - Int.ofNat (atoiDigits cs 0)
  | '+' :: cs => Int.ofNat (atoiDigits cs 0)
  | cs => Int.ofNat (atoiDigits cs 0)

/-- One dotted-quad component accepted by `inet_pton(AF_INET, ..)`: one to
three decimal digits whose value is at most 255. -/
def octetVal (t : String) : Option Nat :=
  if 1 ≤ t.length ∧ t.length ≤ 3 ∧ t.toList.all Char.isDigit then
    let v := t.toList.foldl (fun a c => a * 10 + (c.toNat - 48)) 0
    if v ≤ 255 then some v else none
  else none

/-- Model of `inet_pton(AF_INET, s, ..)`: parse a dotted-quad IPv4 address
string into its 32-bit value (network byte order read as a big-endian
natural). -/
def inet_pton_v4 (s : String) : Option Nat :=
  match (splitOnChar '.' s).mapM octetVal with
  | some [a, b, c, d] => some (((a * 256 + b) * 256 + c) * 256 + d)
  | _ => none

/-- Modelled from the spec: `plen2mask` (libinetutil, outside this source
file) converts an IPv4 prefix length to the standard CIDR netmask — the
32-bit value with the top `plen` bits set — failing outside
`0 ≤ plen ≤ 32`. -/
def plen2mask (plen : Int) : Option Nat :=
  if 0 ≤ plen ∧ plen ≤ 32 then some (2 ^ 32 - 2 ^ (32 - plen.toNat)) else none

/-! ## Netstack buffer normalizer -/

/-- `NETSTACK_BUFSZ` (lxinit.c line 90). -/
def NETSTACK_BUFSZ : Nat := 524288

/-- A `major.minor.patch` version triple, as produced by
`sscanf("%d.%d.%d")` into three C `int`s (missing components stay 0). -/
structure Version where
  major : Int
  minor : Int
  patch : Int
deriving DecidableEq

/-- `lxi_kern_release_cmp`: three-way comparison of the zone's declared
`kernel-version` triple `zvers` against a reference triple `cvers`,
scanning the components most significant first. -/
def lxi_kern_release_cmp (zvers cvers : Version) : Int :=
  if zvers.major > cvers.major then 1
  else if zvers.major < cvers.major then -1
  else if zvers.minor > cvers.minor then 1
  else if zvers.minor < cvers.minor then -1
  else if zvers.patch > cvers.patch then 1
  else if zvers.patch < cvers.patch then -1
  else 0

/-- The four transport protocols touched by `lxi_normalize_protocols`,
in the order of its `proto_entries` array. -/
inductive Proto
  | tcp
  | udp
  | sctp
  | rawip
deriving DecidableEq

/-- The three buffer properties set per protocol. -/
inductive BufProp
  | max_buf
  | send_buf
  | recv_buf
deriving DecidableEq

/-- One `ipadm_set_prop` invocation issued by the normalizer. -/
structure SetPropCall where
  proto : Proto
  prop : BufProp
  value : Nat
deriving DecidableEq

/-- `lxi_normalize_protocols`: pick `max_buf` by comparing the declared
kernel version against `"3.4.0"` (4 MiB below 3.4.0, 6 MiB otherwise),
then for TCP, UDP, SCTP and raw IP — in that order — set `max_buf` first
and then `send_buf` and `recv_buf`, both to `NETSTACK_BUFSZ * 2`.  The
result lists the `ipadm_set_prop` calls in issue order. -/
def lxi_normalize_protocols (zvers : Version) : List SetPropCall :=
  let max_buf : Nat :=
    if lxi_kern_release_cmp zvers ⟨3, 4, 0⟩ < 0 then 4 * 1024 * 1024
    else 6 * 1024 * 1024
  let val : Nat := NETSTACK_BUFSZ * 2
  [Proto.tcp, Proto.udp, Proto.sctp, Proto.rawip].flatMap fun p =>
    [⟨p, BufProp.max_buf, max_buf⟩, ⟨p, BufProp.send_buf, val⟩,
     ⟨p, BufProp.recv_buf, val⟩]

/-- Lexicographic order on version triples, most significant component
first, exactly as the spec words the `max_buf` selection rule. -/
def specLexLt (a b : Version) : Bool :=
  decide (a.major < b.major) ||
    (a.major == b.major && (decide (a.minor < b.minor) ||
      (a.minor == b.minor && decide (a.patch < b.patch))))

/-- The source's three-way comparison is negative exactly on the spec's
lexicographic strict order. -/
theorem kern_cmp_neg_iff (z c : Version) :
    lxi_kern_release_cmp z c < 0 ↔ specLexLt z c = true := by
  unfold lxi_kern_release_cmp specLexLt
  split_ifs <;> simp_all <;> omega

/-- C6: the netstack buffer normalizer selects `max_buf = 4*1024*1024`
when the declared kernel version triple is lexicographically less than
`(3,4,0)` (most significant component first) and `max_buf = 6*1024*1024`
otherwise, and issues exactly that `max_buf` value once for each of the
four protocols TCP, UDP, SCTP and raw IP. -/
theorem c6_max_buf_selection (zvers : Version) :
    (lxi_normalize_protocols zvers).filter
        (fun c => decide (c.prop = BufProp.max_buf)) =
      [Proto.tcp, Proto.udp, Proto.sctp, Proto.rawip].map fun p =>
        ⟨p, BufProp.max_buf,
          if specLexLt zvers ⟨3, 4, 0⟩ then 4 * 1024 * 1024
          else 6 * 1024 * 1024⟩ := by
  by_cases h : lxi_kern_release_cmp zvers ⟨3, 4, 0⟩ < 0
  · have hs : specLexLt zvers ⟨3, 4, 0⟩ = true := (kern_cmp_neg_iff _ _).mp h
    simp only [lxi_normalize_protocols, if_pos h, hs, if_true]
    rfl
  · have hs : specLexLt zvers ⟨3, 4, 0⟩ = false := by
      rcases Bool.eq_false_or_eq_true (specLexLt zvers ⟨3, 4, 0⟩) with h2 | h2
      · exact absurd ((kern_cmp_neg_iff _ _).mpr h2) h
      · exact h2
    simp only [lxi_normalize_protocols, if_neg h, hs, if_false]
    rfl

/-- C1 counterexample: at declared version 3.3.9 the normalizer issues a
`send_buf` call with value 1048576 (= `NETSTACK_BUFSZ * 2` = 1 MiB), and
it is false that every `send_buf`/`recv_buf` call carries the claimed
value `2*1024*1024`. -/
theorem c1_counterexample :
    (SetPropCall.mk Proto.tcp BufProp.send_buf 1048576) ∈
        lxi_normalize_protocols ⟨3, 3, 9⟩ ∧
    ¬ (∀ c ∈ lxi_normalize_protocols ⟨3, 3, 9⟩,
        c.prop = BufProp.send_buf ∨ c.prop = BufProp.recv_buf →
          c.value = 2 * 1024 * 1024) := by
  constructor
  · decide
  · decide

/-- C1 (amended): for every run of the netstack buffer normalizer, the
`send_buf` and `recv_buf` values applied to each of the four protocols
both equal `NETSTACK_BUFSZ * 2 = 1*1024*1024` bytes, unconditionally
(independent of the declared kernel version): the `send_buf`/`recv_buf`
calls are exactly these eight, in this order, for every version. -/
theorem c1_send_recv_bufs (zvers : Version) :
    (lxi_normalize_protocols zvers).filter
        (fun c => decide (c.prop = BufProp.send_buf ∨
          c.prop = BufProp.recv_buf)) =
      [⟨Proto.tcp, BufProp.send_buf, 1048576⟩,
       ⟨Proto.tcp, BufProp.recv_buf, 1048576⟩,
       ⟨Proto.udp, BufProp.send_buf, 1048576⟩,
       ⟨Proto.udp, BufProp.recv_buf, 1048576⟩,
       ⟨Proto.sctp, BufProp.send_buf, 1048576⟩,
       ⟨Proto.sctp, BufProp.recv_buf, 1048576⟩,
       ⟨Proto.rawip, BufProp.send_buf, 1048576⟩,
       ⟨Proto.rawip, BufProp.recv_buf, 1048576⟩] := by
  by_cases h : lxi_kern_release_cmp zvers ⟨3, 4, 0⟩ < 0
  · simp only [lxi_normalize_protocols, if_pos h]
    rfl
  · simp only [lxi_normalize_protocols, if_neg h]
    rfl

/-! ## Route message codec (`lxi_iface_gateway`) -/

/-- `AF_INET` (illumos value 2). -/
def AF_INET : Nat := 2

/-- `RTM_ADD`. -/
def RTM_ADD : Nat := 1

/-- `RTF_UP`. -/
def RTF_UP : Nat := 1

/-- `RTF_GATEWAY`. -/
def RTF_GATEWAY : Nat := 2

/-- `RTF_STATIC`. -/
def RTF_STATIC : Nat := 2048

/-- `RTA_DST`. -/
def RTA_DST : Nat := 1

/-- `RTA_GATEWAY`. -/
def RTA_GATEWAY : Nat := 2

/-- `RTA_NETMASK`. -/
def RTA_NETMASK : Nat := 4

/-- One `struct sockaddr_in` record of the route message, the subset of
fields the source ever writes (everything else stays zero from the
`bzero`).  `sin_addr` is the 32-bit IPv4 value. -/
structure SockaddrIn where
  sin_family : Nat
  sin_port : Nat
  sin_addr : Nat
deriving DecidableEq

/-- The fixed-layout routing-socket message built by `lxi_iface_gateway`:
header fields followed by the three `sockaddr_in` records laid out at
`rtm + 1` (destination), then gateway, then netmask.  The pid, version
and byte length of the header are process/platform values not modelled. -/
structure RtMsg where
  rtm_type : Nat
  rtm_flags : Nat
  rtm_addrs : Nat
  rtm_index : Nat
  dst_sin : SockaddrIn
  gw_sin : SockaddrIn
  netmask_sin : SockaddrIn
deriving DecidableEq

/-- The three address records of the message in buffer layout order:
destination (`rtm + 1`), gateway, netmask. -/
def RtMsg.records (m : RtMsg) : List SockaddrIn :=
  [m.dst_sin, m.gw_sin, m.netmask_sin]

/-- The message as assembled after the `bzero` and the field writes:
`dst_sin`/`netmask_sin` get `sin_family = AF_INET`; the source never
writes `gw_sin.sin_family`, which therefore stays 0. -/
def mkRtMsg (da ga ma idx : Nat) : RtMsg :=
  ⟨RTM_ADD, RTF_UP + RTF_STATIC + RTF_GATEWAY,
   RTA_DST + RTA_GATEWAY + RTA_NETMASK, idx,
   ⟨AF_INET, 0, da⟩, ⟨0, 0, ga⟩, ⟨AF_INET, 0, ma⟩⟩

/-- `lxi_iface_gateway(iface, dst, dstpfx, gwaddr)`: build the RTM_ADD
message.  Destination and netmask are left all-zero (the default route)
when `dst` is absent, else parsed/computed from `dst` and `dstpfx`; the
gateway must parse; an interface name, when present, must resolve to an
index via the external `ifindex` oracle (`if_nametoindex`).  `none`
models the warn-and-return-(-1) failure paths (including the C call with
a NULL `gwaddr`, which cannot parse).  The socket write itself is an
external effect not modelled; `some msg` is the message handed to
`write`. -/
def lxi_iface_gateway (ifindex : String → Option Nat) (iface : Option String)
    (dst : Option String) (dstpfx : Int) (gwaddr : Option String) :
    Option RtMsg :=
  let dstm : Option (Nat × Nat) :=
    match dst with
    | none => some (0, 0)
    | some d =>
      match inet_pton_v4 d, plen2mask dstpfx with
      | some a, some m => some (a, m)
      | _, _ => none
  match dstm with
  | none => none
  | some (da, ma) =>
    match gwaddr.bind inet_pton_v4 with
    | none => none
    | some ga =>
      match iface with
      | none => some (mkRtMsg da ga ma 0)
      | some ifn =>
        match ifindex ifn with
        | none => none
        | some idx => some (mkRtMsg da ga ma idx)

/-- C4: the route message encoder, given a request with no destination,
produces a message whose destination and netmask records carry the
all-zero address 0.0.0.0 (the default route 0.0.0.0/0; their
`sin_family` tags are `AF_INET`, the only field the source writes);
given a destination with prefix length `p ≤ 32` it produces a netmask
record equal to the standard CIDR mask for `p` (the 32-bit value with
the top `p` bits set, so 0 → 0.0.0.0, 24 → 255.255.255.0,
32 → 255.255.255.255); in both cases the three address records appear
in the fixed order destination, gateway, netmask. -/
theorem c4_codec (ifindex : String → Option Nat) (gw : String) (ga : Nat)
    (hg : inet_pton_v4 gw = some ga) :
    (∀ pfx : Int,
      (lxi_iface_gateway ifindex none none pfx (some gw)).map RtMsg.records =
        some [⟨AF_INET, 0, 0⟩, ⟨0, 0, ga⟩, ⟨AF_INET, 0, 0⟩]) ∧
    (∀ d : String, ∀ da p : Nat, inet_pton_v4 d = some da → p ≤ 32 →
      (lxi_iface_gateway ifindex none (some d) (p : Int)
          (some gw)).map RtMsg.records =
        some [⟨AF_INET, 0, da⟩, ⟨0, 0, ga⟩,
              ⟨AF_INET, 0, 2 ^ 32 - 2 ^ (32 - p)⟩]) := by
  constructor
  · intro pfx
    simp only [lxi_iface_gateway, Option.bind, hg, Option.map, mkRtMsg,
      RtMsg.records]
  · intro d da p hd hp
    have hm : plen2mask (p : Int) = some (2 ^ 32 - 2 ^ (32 - p)) := by
      unfold plen2mask
      rw [if_pos ⟨Int.natCast_nonneg p, by exact_mod_cast hp⟩]
      simp
    simp only [lxi_iface_gateway, hd, hm, Option.bind, hg, Option.map,
      mkRtMsg, RtMsg.records]

/-- C4 witness: concrete encodings — the default-route request yields
all-zero destination/netmask addresses, prefix 24 yields the netmask
255.255.255.0 = 4294967040, and prefixes 0 and 32 yield 0 and
4294967295, with records ordered destination, gateway, netmask. -/
theorem c4_codec_witness :
    inet_pton_v4 "10.77.77.2" = some 172838146 ∧
    (lxi_iface_gateway (fun _ => none) none none 0
        (some "10.77.77.2")).map RtMsg.records =
      some [⟨AF_INET, 0, 0⟩, ⟨0, 0, 172838146⟩, ⟨AF_INET, 0, 0⟩] ∧
    (lxi_iface_gateway (fun _ => none) none (some "10.1.1.0") (Int.ofNat 24)
        (some "10.77.77.2")).map RtMsg.records =
      some [⟨AF_INET, 0, 167837952⟩, ⟨0, 0, 172838146⟩,
            ⟨AF_INET, 0, 4294967040⟩] ∧
    (lxi_iface_gateway (fun _ => none) none (some "10.1.1.0") (Int.ofNat 0)
        (some "10.77.77.2")).map RtMsg.records =
      some [⟨AF_INET, 0, 167837952⟩, ⟨0, 0, 172838146⟩,
            ⟨AF_INET, 0, 0⟩] ∧
    (lxi_iface_gateway (fun _ => none) none (some "10.1.1.0") (Int.ofNat 32)
        (some "10.77.77.2")).map RtMsg.records =
      some [⟨AF_INET, 0, 167837952⟩, ⟨0, 0, 172838146⟩,
            ⟨AF_INET, 0, 4294967295⟩] := by
  have hg : inet_pton_v4 "10.77.77.2" = some 172838146 := by decide
  have hd : inet_pton_v4 "10.1.1.0" = some 167837952 := by decide
  refine ⟨hg, (c4_codec (fun _ => none) _ _ hg).1 0, ?_, ?_, ?_⟩
  · exact (c4_codec (fun _ => none) _ _ hg).2 "10.1.1.0" 167837952 24 hd
      (by decide)
  · exact (c4_codec (fun _ => none) _ _ hg).2 "10.1.1.0" 167837952 0 hd
      (by decide)
  · exact (c4_codec (fun _ => none) _ _ hg).2 "10.1.1.0" 167837952 32 hd
      (by decide)

/-! ## Static route feed line handling (`lxi_net_static_route`) -/

/-- The scan state of `lxi_net_static_route`'s character loop: `gw` and
`dst` play the role of the C `char *` variables (`none` = still `NULL`),
`pfx` the C `int` with `-1` as its "not yet collected" sentinel, and
`buf` the `custr_t` accumulation buffer. -/
structure RouteParseState where
  gw : Option String
  dst : Option String
  pfx : Int
  buf : String
deriving DecidableEq

/-- One iteration of `lxi_net_static_route`'s `for` loop over the line's
characters: while `gw` is unset, `|` ends the gateway field; then, while
`dst` is unset, `/` ends the destination field; then, while `pfx` is
`-1`, `|` ends the prefix field (parsed with `atoi`); every other
character is appended to the accumulation buffer. -/
def routeStep (st : RouteParseState) (ch : Char) : RouteParseState :=
  if st.gw = none then
    if ch = '|' then { st with gw := some st.buf, buf := "" }
    else { st with buf := st.buf.push ch }
  else if st.dst = none then
    if ch = '/' then { st with dst := some st.buf, buf := "" }
    else { st with buf := st.buf.push ch }
  else if st.pfx = -1 then
    if ch = '|' then { st with pfx := atoi st.buf, buf := "" }
    else { st with buf := st.buf.push ch }
  else { st with buf := st.buf.push ch }

/-- The final scan state after `lxi_net_static_route`'s loop over one
line, starting from the freshly-initialised locals (`gw = dst = NULL`,
`pfx = -1`, empty `custr`). -/
def routeScan (line : String) : RouteParseState :=
  line.toList.foldl routeStep ⟨none, none, -1, ""⟩

/-- The argument tuple of one `lxi_iface_gateway` invocation. -/
structure InstallCall where
  iface : Option String
  dst : Option String
  pfx : Int
  gw : Option String
deriving DecidableEq

/-- What one `lxi_net_static_route(line)` call does after the scan. -/
structure RouteLineOutcome where
  parsed : RouteParseState
  flagWarned : Bool
  installCalls : List InstallCall
  installResult : Option RtMsg
  fatal : Bool
deriving DecidableEq

/-- `lxi_net_static_route`: scan the line, warn (`lxi_warn("invalid
static route ...")`) exactly when the trailing accumulation buffer is
not the string `"false"`, then unconditionally make exactly one
route-install call `lxi_iface_gateway(NULL, dst, pfx, gw)`; a failing
install call is fatal (`lxi_err`).  The function has no `static` locals
and allocates a fresh `custr_t` per call, so one line's outcome is a
pure function of that line alone — no parser state survives from one
line to the next. -/
def lxi_net_static_route (ifindex : String → Option Nat) (line : String) :
    RouteLineOutcome :=
  let st := routeScan line
  let res := lxi_iface_gateway ifindex none st.dst st.pfx st.gw
  ⟨st, decide (st.buf ≠ "false"), [⟨none, st.dst, st.pfx, st.gw⟩], res,
    res.isNone⟩

/-- C5: the well-formed line `"10.77.77.2|10.1.1.0/24|false"` scans to
gateway `"10.77.77.2"`, destination `"10.1.1.0"`, prefix 24 and flag
buffer `"false"` (no warning), and triggers exactly one route-install
invocation, carrying precisely those values; the resulting message
encodes destination 10.1.1.0, netmask 255.255.255.0 and gateway
10.77.77.2.  (Per-line independence is inherent: the source keeps no
cross-call state, so the outcome is a function of the line alone.) -/
theorem c5_route_line :
    routeScan "10.77.77.2|10.1.1.0/24|false" =
      ⟨some "10.77.77.2", some "10.1.1.0", 24, "false"⟩ ∧
    (lxi_net_static_route (fun _ => none)
        "10.77.77.2|10.1.1.0/24|false").flagWarned = false ∧
    (lxi_net_static_route (fun _ => none)
        "10.77.77.2|10.1.1.0/24|false").installCalls =
      [⟨none, some "10.1.1.0", 24, some "10.77.77.2"⟩] ∧
    (lxi_net_static_route (fun _ => none)
        "10.77.77.2|10.1.1.0/24|false").installResult =
      some (mkRtMsg 167837952 172838146 4294967040 0) ∧
    (lxi_net_static_route (fun _ => none)
        "10.77.77.2|10.1.1.0/24|false").fatal = false := by
  refine ⟨by decide, by decide, by decide, by decide, by decide⟩

/-- C8: whenever the flag field left in the accumulation buffer at end of
line differs from `"false"`, the line is only warned about, never
rejected: the route-install call is still made, with the gateway,
destination and prefix collected by the scan (i.e. as a next-hop
route), unaffected by the flag value. -/
theorem c8_flag_only_warns (ifindex : String → Option Nat) (line : String)
    (h : (routeScan line).buf ≠ "false") :
    (lxi_net_static_route ifindex line).flagWarned = true ∧
    (lxi_net_static_route ifindex line).installCalls =
      [⟨none, (routeScan line).dst, (routeScan line).pfx,
        (routeScan line).gw⟩] ∧
    (lxi_net_static_route ifindex line).installResult =
      lxi_iface_gateway ifindex none (routeScan line).dst
        (routeScan line).pfx (routeScan line).gw := by
  refine ⟨?_, rfl, rfl⟩
  simp only [lxi_net_static_route, decide_eq_true_eq]
  exact h

/-- C8 witness: the line `"10.77.77.2|10.1.1.0/24|true"` (flag not
`"false"`) is warned about, yet its route-install call is still made
with the scanned gateway/destination/prefix and succeeds, installing
the next-hop route. -/
theorem c8_flag_only_warns_witness :
    (routeScan "10.77.77.2|10.1.1.0/24|true").buf ≠ "false" ∧
    (lxi_net_static_route (fun _ => none)
        "10.77.77.2|10.1.1.0/24|true").flagWarned = true ∧
    (lxi_net_static_route (fun _ => none)
        "10.77.77.2|10.1.1.0/24|true").installCalls =
      [⟨none, some "10.1.1.0", 24, some "10.77.77.2"⟩] ∧
    (lxi_net_static_route (fun _ => none)
        "10.77.77.2|10.1.1.0/24|true").installResult =
      some (mkRtMsg 167837952 172838146 4294967040 0) := by
  refine ⟨by decide, (c8_flag_only_warns (fun _ => none) _ (by decide)).1,
    ?_, ?_⟩
  · exact ((c8_flag_only_warns (fun _ => none)
      "10.77.77.2|10.1.1.0/24|true" (by decide)).2.1).trans (by decide)
  · exact ((c8_flag_only_warns (fun _ => none)
      "10.77.77.2|10.1.1.0/24|true" (by decide)).2.2).trans (by decide)

/-- C3 counterexample: on the delimiter-less line `"10.77.77.2"` the
scan leaves the gateway and destination unset and accumulates the whole
line into the flag buffer; the code does not detect this as a parse
error — it emits only the flag warning and still makes a route-install
call (with NULL gateway, NULL destination and prefix `-1`), so the
claim that no route-install call is made for such a line is false; the
call fails and the failure is fatal (`lxi_err`), not a `ParseError`. -/
theorem c3_counterexample :
    (routeScan "10.77.77.2").gw = none ∧
    (routeScan "10.77.77.2").dst = none ∧
    (routeScan "10.77.77.2").buf = "10.77.77.2" ∧
    (lxi_net_static_route (fun _ => none) "10.77.77.2").installCalls =
      [⟨none, none, -1, none⟩] ∧
    (lxi_net_static_route (fun _ => none) "10.77.77.2").flagWarned = true ∧
    (lxi_net_static_route (fun _ => none) "10.77.77.2").installResult =
      none ∧
    (lxi_net_static_route (fun _ => none) "10.77.77.2").fatal = true := by
  refine ⟨by decide, by decide, by decide, by decide, by decide, by decide,
    by decide⟩

/-- Scanning characters that contain no `|` can never leave the
gateway-collection state: the gateway, destination and prefix fields
stay unset. -/
theorem routeScan_no_bar (cs : List Char) (b : String) (h : '|' ∉ cs) :
    ∃ b2, cs.foldl routeStep ⟨none, none, -1, b⟩ = ⟨none, none, -1, b2⟩ := by
  induction cs generalizing b with
  | nil => exact ⟨b, rfl⟩
  | cons c cs ih =>
    have hc : c ≠ '|' := fun he => h (he ▸ List.mem_cons_self c cs)
    have hstep : routeStep ⟨none, none, -1, b⟩ c =
        ⟨none, none, -1, b.push c⟩ := by
      simp [routeStep, hc]
    rw [List.foldl_cons, hstep]
    exact ih (b.push c) (fun hm => h (List.mem_cons_of_mem c hm))

/-- C3 (amended): a static route line containing no `|` delimiter is not
detected as malformed: the scan leaves gateway and destination `NULL`
and the prefix `-1`, and the code still makes exactly one route-install
call with those unset values; that call fails (a NULL gateway cannot
parse), and the failure is reported as a fatal route-install error
(`lxi_err`, aborting the run) rather than as a `ParseError` — no route
is installed, but a route-install call is made. -/
theorem c3_missing_delimiter (ifindex : String → Option Nat) (line : String)
    (h : '|' ∉ line.toList) :
    (routeScan line).gw = none ∧
    (routeScan line).dst = none ∧
    (routeScan line).pfx = -1 ∧
    (lxi_net_static_route ifindex line).installCalls =
      [⟨none, none, -1, none⟩] ∧
    (lxi_net_static_route ifindex line).installResult = none ∧
    (lxi_net_static_route ifindex line).fatal = true := by
  obtain ⟨b2, hb⟩ := routeScan_no_bar line.toList "" h
  have hs : routeScan line = ⟨none, none, -1, b2⟩ := hb
  refine ⟨by rw [hs], by rw [hs], by rw [hs], ?_, ?_, ?_⟩
  · simp only [lxi_net_static_route, hs]
  · simp only [lxi_net_static_route, hs]
    rfl
  · simp only [lxi_net_static_route, hs]
    rfl

/-- C3 witness for the amended statement: the concrete line
`"10.77.77.2"` exercises it — one failing, fatal install call with
everything unset. -/
theorem c3_missing_delimiter_witness :
    '|' ∉ "10.77.77.2".toList ∧
    (routeScan "10.77.77.2").gw = none ∧
    (lxi_net_static_route (fun _ => none) "10.77.77.2").installCalls =
      [⟨none, none, -1, none⟩] ∧
    (lxi_net_static_route (fun _ => none) "10.77.77.2").installResult =
      none ∧
    (lxi_net_static_route (fun _ => none) "10.77.77.2").fatal = true := by
  refine ⟨by decide,
    (c3_missing_delimiter (fun _ => none) "10.77.77.2" (by decide)).1,
    (c3_missing_delimiter (fun _ => none) "10.77.77.2" (by decide)).2.2.2.1,
    (c3_missing_delimiter (fun _ => none) "10.77.77.2" (by decide)).2.2.2.2.1,
    (c3_missing_delimiter (fun _ => none) "10.77.77.2" (by decide)).2.2.2.2.2⟩

/-! ## Logical interface allocation and literal address application
(`lxi_getif`, `lxi_iface_ip`) -/

/-- Address family, as classified in `lxi_iface_ip`. -/
inductive Family
  | v4
  | v6
deriving DecidableEq

/-- Where an address ends up: on the base interface itself, or on a
newly-allocated logical interface (`SIOCLIFADDIF` on the base name,
which returns a kernel-assigned `base:N` name). -/
inductive Target
  | base
  | newLogical
deriving DecidableEq

/-- An address-object name `"<interface>/addr<N>"`, modelled as the pair
of the interface processed and the process-wide counter value consumed
(the `snprintf` rendering is injective in the pair, so distinctness of
the pairs gives distinctness of the rendered names). -/
structure AobjName where
  iface : String
  num : Nat
deriving DecidableEq

/-- One `lxi_iface_ip` invocation together with the external-collaborator
outcomes it can encounter: `getifOk` is `lxi_getif` succeeding (socket
and, when needed, `SIOCLIFADDIF`); `createOk`, `setOk`, `addrOk` are
`ipadm_create_addrobj`, `ipadm_set_addr` and `ipadm_create_addr`
respectively. -/
structure IpCall where
  iface : String
  addr : String
  getifOk : Bool
  createOk : Bool
  setOk : Bool
  addrOk : Bool
deriving DecidableEq

/-- What one `lxi_iface_ip` call produced: the classified family, where
the address was placed when fully applied (`none` = skipped with a
warning), and the address-object name generated (generated exactly when
`lxi_getif` succeeded, even if a later ipadm step fails). -/
structure IpStep where
  fam : Family
  placed : Option Target
  name : Option AobjName
deriving DecidableEq

/-- Family classification in `lxi_iface_ip`:
`strstr(addr, ":") == NULL ? AF_INET : AF_INET6`. -/
def addrFamily (addr : String) : Family :=
  if strContains addr ":" then Family.v6 else Family.v4

/-- `lxi_getif`'s target selection: a new logical interface is requested
for every IPv6 address and for every address once the first IPv4 address
has been configured; otherwise the base interface name is used
unchanged. -/
def lxi_getif_target (af : Family) (first_ipv4_configured : Bool) : Target :=
  if af = Family.v6 ∨ first_ipv4_configured = true then Target.newLogical
  else Target.base

/-- One `lxi_iface_ip` call, threading the per-interface
`first_ipv4_configured` flag and the process-wide `addrnum` counter:
on `lxi_getif` failure it warns and returns before the name is built
(counter untouched); otherwise it builds `"<iface>/addr<addrnum++>"`,
runs the three ipadm steps, and — only if all succeed and the family is
IPv4 — sets the flag.  Returns (trace step, new flag, new counter). -/
def lxi_iface_ip (ficp : Bool) (addrnum : Nat) (c : IpCall) :
    IpStep × Bool × Nat :=
  match c.getifOk with
  | false => (⟨addrFamily c.addr, none, none⟩, ficp, addrnum)
  | true =>
    match c.createOk && c.setOk && c.addrOk with
    | false =>
      (⟨addrFamily c.addr, none, some ⟨c.iface, addrnum⟩⟩, ficp, addrnum + 1)
    | true =>
      match addrFamily c.addr with
      | Family.v4 =>
        (⟨Family.v4, some (lxi_getif_target Family.v4 ficp),
          some ⟨c.iface, addrnum⟩⟩, true, addrnum + 1)
      | Family.v6 =>
        (⟨Family.v6, some (lxi_getif_target Family.v6 ficp),
          some ⟨c.iface, addrnum⟩⟩, ficp, addrnum + 1)

/-- A sequence of `lxi_iface_ip` calls (one run), threading the flag and
the counter; returns the trace together with the final flag and counter. -/
def runIp (ficp : Bool) (n : Nat) : List IpCall → List IpStep × Bool × Nat
  | [] => ([], ficp, n)
  | c :: cs =>
    match lxi_iface_ip ficp n c with
    | (st, f1, n1) =>
      match runIp f1 n1 cs with
      | (tr, f2, n2) => (st :: tr, f2, n2)

/-- The contribution of one trace step to the list of successfully
applied IPv4 placements. -/
def stepV4 (s : IpStep) : Option Target :=
  match s.placed with
  | none => none
  | some t =>
    match s.fam with
    | Family.v4 => some t
    | Family.v6 => none

/-- The contribution of one trace step to the list of successfully
applied IPv6 placements. -/
def stepV6 (s : IpStep) : Option Target :=
  match s.placed with
  | none => none
  | some t =>
    match s.fam with
    | Family.v6 => some t
    | Family.v4 => none

/-- The targets of the successfully applied IPv4 addresses of a trace,
in order. -/
def v4Placements (tr : List IpStep) : List Target :=
  tr.filterMap stepV4

/-- The targets of the successfully applied IPv6 addresses of a trace,
in order. -/
def v6Placements (tr : List IpStep) : List Target :=
  tr.filterMap stepV6

/-- The address-object names generated by a trace, in order. -/
def namesOf (tr : List IpStep) : List AobjName :=
  tr.filterMap fun s => s.name

theorem lxi_getif_target_v6 (f : Bool) :
    lxi_getif_target Family.v6 f = Target.newLogical := by
  simp [lxi_getif_target]

theorem lxi_getif_target_v4_true :
    lxi_getif_target Family.v4 true = Target.newLogical := by
  simp [lxi_getif_target]

theorem lxi_getif_target_v4_false :
    lxi_getif_target Family.v4 false = Target.base := by
  simp [lxi_getif_target]

theorem iface_ip_getif_fail (ficp : Bool) (n : Nat) (c : IpCall)
    (h : c.getifOk = false) :
    lxi_iface_ip ficp n c = (⟨addrFamily c.addr, none, none⟩, ficp, n) := by
  simp [lxi_iface_ip, h]

theorem iface_ip_apply_fail (ficp : Bool) (n : Nat) (c : IpCall)
    (hg : c.getifOk = true) (h : (c.createOk && c.setOk && c.addrOk) = false) :
    lxi_iface_ip ficp n c =
      (⟨addrFamily c.addr, none, some ⟨c.iface, n⟩⟩, ficp, n + 1) := by
  simp [lxi_iface_ip, hg, h]

theorem iface_ip_ok_v4 (ficp : Bool) (n : Nat) (c : IpCall)
    (hg : c.getifOk = true) (h : (c.createOk && c.setOk && c.addrOk) = true)
    (haf : addrFamily c.addr = Family.v4) :
    lxi_iface_ip ficp n c =
      (⟨Family.v4, some (lxi_getif_target Family.v4 ficp),
        some ⟨c.iface, n⟩⟩, true, n + 1) := by
  simp [lxi_iface_ip, hg, h, haf]

theorem iface_ip_ok_v6 (ficp : Bool) (n : Nat) (c : IpCall)
    (hg : c.getifOk = true) (h : (c.createOk && c.setOk && c.addrOk) = true)
    (haf : addrFamily c.addr = Family.v6) :
    lxi_iface_ip ficp n c =
      (⟨Family.v6, some (lxi_getif_target Family.v6 ficp),
        some ⟨c.iface, n⟩⟩, ficp, n + 1) := by
  simp [lxi_iface_ip, hg, h, haf]

theorem runIp_trace_cons (ficp : Bool) (n : Nat) (c : IpCall)
    (cs : List IpCall) (st : IpStep) (f1 : Bool) (n1 : Nat)
    (h : lxi_iface_ip ficp n c = (st, f1, n1)) :
    (runIp ficp n (c :: cs)).1 = st :: (runIp f1 n1 cs).1 := by
  rcases hr : runIp f1 n1 cs with ⟨tr, f2, n2⟩
  simp only [runIp, h, hr]

theorem runIp_counter_cons (ficp : Bool) (n : Nat) (c : IpCall)
    (cs : List IpCall) (st : IpStep) (f1 : Bool) (n1 : Nat)
    (h : lxi_iface_ip ficp n c = (st, f1, n1)) :
    (runIp ficp n (c :: cs)).2.2 = (runIp f1 n1 cs).2.2 := by
  rcases hr : runIp f1 n1 cs with ⟨tr, f2, n2⟩
  simp only [runIp, h, hr]

/-- Every successfully applied IPv6 address is placed on a new logical
interface, whatever the flag state. -/
theorem v6_always_logical (calls : List IpCall) :
    ∀ (ficp : Bool) (n : Nat),
      ∀ t ∈ v6Placements (runIp ficp n calls).1, t = Target.newLogical := by
  induction calls with
  | nil =>
    intro ficp n t ht
    simp [runIp, v6Placements] at ht
  | cons c cs ih =>
    intro ficp n t ht
    cases hg : c.getifOk with
    | false =>
      rw [runIp_trace_cons ficp n c cs _ _ _
        (iface_ip_getif_fail ficp n c hg)] at ht
      simp only [v6Placements, List.filterMap_cons, stepV6] at ht
      exact ih ficp n t ht
    | true =>
      cases hok : c.createOk && c.setOk && c.addrOk with
      | false =>
        rw [runIp_trace_cons ficp n c cs _ _ _
          (iface_ip_apply_fail ficp n c hg hok)] at ht
        simp only [v6Placements, List.filterMap_cons, stepV6] at ht
        exact ih ficp (n + 1) t ht
      | true =>
        cases haf : addrFamily c.addr with
        | v4 =>
          rw [runIp_trace_cons ficp n c cs _ _ _
            (iface_ip_ok_v4 ficp n c hg hok haf)] at ht
          simp only [v6Placements, List.filterMap_cons, stepV6] at ht
          exact ih true (n + 1) t ht
        | v6 =>
          rw [runIp_trace_cons ficp n c cs _ _ _
            (iface_ip_ok_v6 ficp n c hg hok haf)] at ht
          simp only [v6Placements, List.filterMap_cons, stepV6,
            lxi_getif_target_v6] at ht
          rcases List.mem_cons.mp ht with h2 | h2
          · exact h2
          · exact ih ficp (n + 1) t h2

/-- Once the first IPv4 address has been configured (flag true), every
successfully applied IPv4 address is placed on a new logical interface
(the flag never reverts to false). -/
theorem v4_logical_of_flag (calls : List IpCall) :
    ∀ (n : Nat),
      ∀ t ∈ v4Placements (runIp true n calls).1, t = Target.newLogical := by
  induction calls with
  | nil =>
    intro n t ht
    simp [runIp, v4Placements] at ht
  | cons c cs ih =>
    intro n t ht
    cases hg : c.getifOk with
    | false =>
      rw [runIp_trace_cons true n c cs _ _ _
        (iface_ip_getif_fail true n c hg)] at ht
      simp only [v4Placements, List.filterMap_cons, stepV4] at ht
      exact ih n t ht
    | true =>
      cases hok : c.createOk && c.setOk && c.addrOk with
      | false =>
        rw [runIp_trace_cons true n c cs _ _ _
          (iface_ip_apply_fail true n c hg hok)] at ht
        simp only [v4Placements, List.filterMap_cons, stepV4] at ht
        exact ih (n + 1) t ht
      | true =>
        cases haf : addrFamily c.addr with
        | v4 =>
          rw [runIp_trace_cons true n c cs _ _ _
            (iface_ip_ok_v4 true n c hg hok haf)] at ht
          simp only [v4Placements, List.filterMap_cons, stepV4,
            lxi_getif_target_v4_true] at ht
          rcases List.mem_cons.mp ht with h2 | h2
          · exact h2
          · exact ih (n + 1) t h2
        | v6 =>
          rw [runIp_trace_cons true n c cs _ _ _
            (iface_ip_ok_v6 true n c hg hok haf)] at ht
          simp only [v4Placements, List.filterMap_cons, stepV4] at ht
          exact ih (n + 1) t ht

/-- The shape of the successful IPv4 placements of a run that starts
with the flag false: if any exist, the first is on the base interface
and all later ones are on new logical interfaces. -/
def firstBaseShape : List Target → Prop
  | [] => True
  | t :: ts => t = Target.base ∧ ∀ t2 ∈ ts, t2 = Target.newLogical

/-- From a false flag, the successful IPv4 placements follow
`firstBaseShape`. -/
theorem v4_shape_from_false (calls : List IpCall) :
    ∀ (n : Nat), firstBaseShape (v4Placements (runIp false n calls).1) := by
  induction calls with
  | nil =>
    intro n
    simp only [runIp, v4Placements, List.filterMap_nil]
    trivial
  | cons c cs ih =>
    intro n
    cases hg : c.getifOk with
    | false =>
      rw [v4Placements, runIp_trace_cons false n c cs _ _ _
        (iface_ip_getif_fail false n c hg)]
      simp only [List.filterMap_cons, stepV6, stepV4]
      exact ih n
    | true =>
      cases hok : c.createOk && c.setOk && c.addrOk with
      | false =>
        rw [v4Placements, runIp_trace_cons false n c cs _ _ _
          (iface_ip_apply_fail false n c hg hok)]
        simp only [List.filterMap_cons, stepV4]
        exact ih (n + 1)
      | true =>
        cases haf : addrFamily c.addr with
        | v4 =>
          rw [v4Placements, runIp_trace_cons false n c cs _ _ _
            (iface_ip_ok_v4 false n c hg hok haf)]
          simp only [List.filterMap_cons, stepV4, lxi_getif_target_v4_false]
          exact ⟨rfl, v4_logical_of_flag cs (n + 1)⟩
        | v6 =>
          rw [v4Placements, runIp_trace_cons false n c cs _ _ _
            (iface_ip_ok_v6 false n c hg hok haf)]
          simp only [List.filterMap_cons, stepV4]
          exact ih (n + 1)

/-- C2 counterexample: a run on one base interface in which the first
IPv4 assignment fails at the ipadm layer (`ipadm_create_addrobj`
rejects it) and the second succeeds.  The trace shows the first IPv4
address is not placed at all, and the second — a subsequent IPv4
address — is placed directly on the base interface, not on a newly
allocated logical interface, because `first_ipv4_configured` is only
set on success.  This refutes the claim as stated, which admits no
success qualification. -/
theorem c2_counterexample :
    ((runIp false 0
        [⟨"eth0", "10.0.0.1/24", true, false, true, true⟩,
         ⟨"eth0", "10.0.0.2/24", true, true, true, true⟩]).1.map
      fun s => (s.fam, s.placed)) =
      [(Family.v4, none), (Family.v4, some Target.base)] := by
  decide

/-- C2 (amended): for every sequence of address assignments to one base
interface (starting with `first_ipv4_configured = false`): every
successfully applied IPv6 address — including the first — is placed on
a newly allocated logical interface, never the base name; and among the
successfully applied IPv4 addresses, exactly the first (if any) is
placed directly on the base interface while every later one is placed
on a newly allocated logical interface. -/
theorem c2_alloc_policy (n : Nat) (calls : List IpCall) :
    (∀ t ∈ v6Placements (runIp false n calls).1, t = Target.newLogical) ∧
    firstBaseShape (v4Placements (runIp false n calls).1) :=
  ⟨v6_always_logical calls false n, v4_shape_from_false calls n⟩

/-- C2 witness: the amended policy instantiated on a concrete run — an
IPv6 address first, then two successful IPv4 addresses — whose trace
places the IPv6 address and the second IPv4 address on new logical
interfaces and only the first IPv4 address on the base interface. -/
theorem c2_alloc_policy_witness :
    (∀ t ∈ v6Placements (runIp false 0
        [⟨"eth0", "fe80::1/64", true, true, true, true⟩,
         ⟨"eth0", "10.0.0.1/24", true, true, true, true⟩,
         ⟨"eth0", "10.0.0.2/24", true, true, true, true⟩]).1,
      t = Target.newLogical) ∧
    firstBaseShape (v4Placements (runIp false 0
        [⟨"eth0", "fe80::1/64", true, true, true, true⟩,
         ⟨"eth0", "10.0.0.1/24", true, true, true, true⟩,
         ⟨"eth0", "10.0.0.2/24", true, true, true, true⟩]).1) ∧
    v6Placements (runIp false 0
        [⟨"eth0", "fe80::1/64", true, true, true, true⟩,
         ⟨"eth0", "10.0.0.1/24", true, true, true, true⟩,
         ⟨"eth0", "10.0.0.2/24", true, true, true, true⟩]).1 =
      [Target.newLogical] ∧
    v4Placements (runIp false 0
        [⟨"eth0", "fe80::1/64", true, true, true, true⟩,
         ⟨"eth0", "10.0.0.1/24", true, true, true, true⟩,
         ⟨"eth0", "10.0.0.2/24", true, true, true, true⟩]).1 =
      [Target.base, Target.newLogical] :=
  ⟨(c2_alloc_policy 0 _).1, (c2_alloc_policy 0 _).2, by decide, by decide⟩

/-- Every generated address-object name consumes a counter value at
least as large as the counter at the start of the run. -/
theorem namesOf_lower_bound (calls : List IpCall) :
    ∀ (ficp : Bool) (n : Nat),
      ∀ a ∈ namesOf (runIp ficp n calls).1, n ≤ a.num := by
  induction calls with
  | nil =>
    intro ficp n a ha
    simp [runIp, namesOf] at ha
  | cons c cs ih =>
    intro ficp n a ha
    cases hg : c.getifOk with
    | false =>
      rw [namesOf, runIp_trace_cons ficp n c cs _ _ _
        (iface_ip_getif_fail ficp n c hg)] at ha
      simp only [List.filterMap_cons] at ha
      exact ih ficp n a ha
    | true =>
      cases hok : c.createOk && c.setOk && c.addrOk with
      | false =>
        rw [namesOf, runIp_trace_cons ficp n c cs _ _ _
          (iface_ip_apply_fail ficp n c hg hok)] at ha
        simp only [List.filterMap_cons] at ha
        rcases List.mem_cons.mp ha with h2 | h2
        · rw [h2]
        · exact Nat.le_of_succ_le (ih ficp (n + 1) a h2)
      | true =>
        cases haf : addrFamily c.addr with
        | v4 =>
          rw [namesOf, runIp_trace_cons ficp n c cs _ _ _
            (iface_ip_ok_v4 ficp n c hg hok haf)] at ha
          simp only [List.filterMap_cons] at ha
          rcases List.mem_cons.mp ha with h2 | h2
          · rw [h2]
          · exact Nat.le_of_succ_le (ih true (n + 1) a h2)
        | v6 =>
          rw [namesOf, runIp_trace_cons ficp n c cs _ _ _
            (iface_ip_ok_v6 ficp n c hg hok haf)] at ha
          simp only [List.filterMap_cons] at ha
          rcases List.mem_cons.mp ha with h2 | h2
          · rw [h2]
          · exact Nat.le_of_succ_le (ih ficp (n + 1) a h2)

/-- The counter values of the generated names are strictly increasing
along the run. -/
theorem namesOf_pairwise_lt (calls : List IpCall) :
    ∀ (ficp : Bool) (n : Nat),
      (namesOf (runIp ficp n calls).1).Pairwise
        fun a b => a.num < b.num := by
  induction calls with
  | nil =>
    intro ficp n
    simp [runIp, namesOf]
  | cons c cs ih =>
    intro ficp n
    cases hg : c.getifOk with
    | false =>
      rw [namesOf, runIp_trace_cons ficp n c cs _ _ _
        (iface_ip_getif_fail ficp n c hg)]
      simp only [List.filterMap_cons]
      exact ih ficp n
    | true =>
      cases hok : c.createOk && c.setOk && c.addrOk with
      | false =>
        rw [namesOf, runIp_trace_cons ficp n c cs _ _ _
          (iface_ip_apply_fail ficp n c hg hok)]
        simp only [List.filterMap_cons]
        exact List.Pairwise.cons
          (fun b hb => Nat.lt_of_succ_le (namesOf_lower_bound cs ficp (n + 1) b hb))
          (ih ficp (n + 1))
      | true =>
        cases haf : addrFamily c.addr with
        | v4 =>
          rw [namesOf, runIp_trace_cons ficp n c cs _ _ _
            (iface_ip_ok_v4 ficp n c hg hok haf)]
          simp only [List.filterMap_cons]
          exact List.Pairwise.cons
            (fun b hb => Nat.lt_of_succ_le (namesOf_lower_bound cs true (n + 1) b hb))
            (ih true (n + 1))
        | v6 =>
          rw [namesOf, runIp_trace_cons ficp n c cs _ _ _
            (iface_ip_ok_v6 ficp n c hg hok haf)]
          simp only [List.filterMap_cons]
          exact List.Pairwise.cons
            (fun b hb => Nat.lt_of_succ_le (namesOf_lower_bound cs ficp (n + 1) b hb))
            (ih ficp (n + 1))

/-- The final counter equals the start counter plus the number of names
generated: the counter only moves forward, by exactly one per generated
name. -/
theorem runIp_counter_eq (calls : List IpCall) :
    ∀ (ficp : Bool) (n : Nat),
      (runIp ficp n calls).2.2 =
        n + (namesOf (runIp ficp n calls).1).length := by
  induction calls with
  | nil =>
    intro ficp n
    simp [runIp, namesOf]
  | cons c cs ih =>
    intro ficp n
    cases hg : c.getifOk with
    | false =>
      rw [runIp_counter_cons ficp n c cs _ _ _
        (iface_ip_getif_fail ficp n c hg),
        namesOf, runIp_trace_cons ficp n c cs _ _ _
        (iface_ip_getif_fail ficp n c hg)]
      simp only [List.filterMap_cons]
      exact ih ficp n
    | true =>
      cases hok : c.createOk && c.setOk && c.addrOk with
      | false =>
        rw [runIp_counter_cons ficp n c cs _ _ _
          (iface_ip_apply_fail ficp n c hg hok),
          namesOf, runIp_trace_cons ficp n c cs _ _ _
          (iface_ip_apply_fail ficp n c hg hok)]
        simp only [List.filterMap_cons, List.length_cons]
        rw [ih ficp (n + 1)]
        simp only [namesOf]
        omega
      | true =>
        cases haf : addrFamily c.addr with
        | v4 =>
          rw [runIp_counter_cons ficp n c cs _ _ _
            (iface_ip_ok_v4 ficp n c hg hok haf),
            namesOf, runIp_trace_cons ficp n c cs _ _ _
            (iface_ip_ok_v4 ficp n c hg hok haf)]
          simp only [List.filterMap_cons, List.length_cons]
          rw [ih true (n + 1)]
          simp only [namesOf]
          omega
        | v6 =>
          rw [runIp_counter_cons ficp n c cs _ _ _
            (iface_ip_ok_v6 ficp n c hg hok haf),
            namesOf, runIp_trace_cons ficp n c cs _ _ _
            (iface_ip_ok_v6 ficp n c hg hok haf)]
          simp only [List.filterMap_cons, List.length_cons]
          rw [ih ficp (n + 1)]
          simp only [namesOf]
          omega

/-- C9: the address-object naming counter is process-wide and strictly
increasing across all address assignments of a run (whatever interfaces
they touch and whether or not each application succeeds after name
generation): the counter values embedded in the generated
`"<interface>/addr<N>"` names strictly increase in generation order,
the names are therefore pairwise distinct, and the counter never resets
— its final value is the initial value plus the number of names
generated. -/
theorem c9_counter_unique (ficp : Bool) (n : Nat) (calls : List IpCall) :
    ((namesOf (runIp ficp n calls).1).Pairwise fun a b => a.num < b.num) ∧
    ((namesOf (runIp ficp n calls).1).Pairwise fun a b => a ≠ b) ∧
    (runIp ficp n calls).2.2 =
      n + (namesOf (runIp ficp n calls).1).length := by
  refine ⟨namesOf_pairwise_lt calls ficp n, ?_, runIp_counter_eq calls ficp n⟩
  refine (namesOf_pairwise_lt calls ficp n).imp ?_
  intro a b hlt he
  rw [he] at hlt
  exact Nat.lt_irrefl _ hlt

/-! ## DHCP and the per-interface address block of `lxi_net_setup` -/

/-- External-collaborator outcomes of one `lxi_iface_dhcp` call:
`getifOk` is `lxi_getif` succeeding, `agentStartOk` is
`dhcp_start_agent(5)` succeeding, `allocOk` is
`dhcp_ipc_alloc_request` returning non-NULL, `makeReqErr` is the
return value of `dhcp_ipc_make_request` (0 = reply received within the
5 second timeout), and `replyRc` is the reply's `return_code`. -/
structure DhcpOutcome where
  getifOk : Bool
  agentStartOk : Bool
  allocOk : Bool
  makeReqErr : Int
  replyRc : Int
deriving DecidableEq

/-- Result of one `lxi_iface_dhcp` call: the C return value, the
per-interface `first_ipv4_configured` flag after the call, and whether
the call was fatal (`lxi_err`, which never returns). -/
structure DhcpResult where
  ret : Int
  ficp : Bool
  fatal : Bool
deriving DecidableEq

/-- `lxi_iface_dhcp`: warn-and-return `-1` if `lxi_getif` fails; fatal
`lxi_err` if the dhcpagent cannot be started; warn-and-return `-1` if
the request cannot be allocated or `dhcp_ipc_make_request` fails (e.g.
times out); warn and return the reply's non-zero `return_code` if the
lease request was refused; only on full success set
`first_ipv4_configured` and return 0. -/
def lxi_iface_dhcp (ficp : Bool) (o : DhcpOutcome) : DhcpResult :=
  if o.getifOk = false then ⟨-1, ficp, false⟩
  else if o.agentStartOk = false then ⟨-1, ficp, true⟩
  else if o.allocOk = false then ⟨-1, ficp, false⟩
  else if o.makeReqErr ≠ 0 then ⟨-1, ficp, false⟩
  else if o.replyRc ≠ 0 then ⟨o.replyRc, ficp, false⟩
  else ⟨0, true, false⟩

/-- The observable per-interface actions of `lxi_net_setup`'s address
block, in program order: the single optional DHCP request, then one
literal application attempt (`lxi_iface_ip`) per surviving token. -/
inductive Action
  | dhcpReq
  | literal (addr : String)
deriving DecidableEq

/-- The body of the token loop in `lxi_net_setup`: `"addrconf"` only
sets the `do_addrconf` flag, `"dhcp"` is skipped (`continue`), anything
else becomes a literal application attempt. -/
def setupTokenStep (acc : List Action × Bool) (t : String) :
    List Action × Bool :=
  if t = "addrconf" then (acc.1, true)
  else if t = "dhcp" then acc
  else (acc.1 ++ [Action.literal t], acc.2)

/-- Outcome of the per-interface address block. -/
structure IfaceOutcome where
  dhcpAttempted : Bool
  dhcpWarned : Bool
  ficpAfterDhcp : Bool
  fatal : Bool
  doAddrconf : Bool
  actions : List Action
deriving DecidableEq

/-- The address block of `lxi_net_setup` for one interface with address
attribute string `ipaddrs`: attempt DHCP first — exactly when
`strstr(ipaddrs, "dhcp")` is non-NULL — on the fresh (false)
`first_ipv4_configured` flag, warning if the attempt returns non-zero;
then (unless DHCP was fatal) iterate `strtok_r(ipaddrs_copy, ",")`
applying each token via the loop body.  `actions` records the DHCP
request and the literal application attempts in program order. -/
def lxi_net_setup_iface (ipaddrs : String) (o : DhcpOutcome) :
    IfaceOutcome :=
  let attempted := strContains ipaddrs "dhcp"
  let dres := if attempted then lxi_iface_dhcp false o else ⟨0, false, false⟩
  if dres.fatal then
    ⟨attempted, false, dres.ficp, true, false, [Action.dhcpReq]⟩
  else
    let start : List Action × Bool :=
      (if attempted then [Action.dhcpReq] else [], false)
    let r := (strtokComma ipaddrs).foldl setupTokenStep start
    ⟨attempted, attempted && decide (dres.ret ≠ 0), dres.ficp, false, r.2,
      r.1⟩

/-- The token loop only appends literal attempts for tokens that are
neither `"addrconf"` nor `"dhcp"`, in token order, after whatever came
before the loop. -/
theorem setupTokenFold (toks : List String) (pre : List Action) (b : Bool) :
    (toks.foldl setupTokenStep (pre, b)).1 =
      pre ++ (toks.filter fun t =>
        decide (t ≠ "addrconf") && decide (t ≠ "dhcp")).map
          Action.literal := by
  induction toks generalizing pre b with
  | nil => simp
  | cons t ts ih =>
    by_cases h1 : t = "addrconf"
    · simp only [List.foldl_cons, setupTokenStep, if_pos h1,
        List.filter_cons, h1]
      simpa using ih pre true
    · by_cases h2 : t = "dhcp"
      · simp only [List.foldl_cons, setupTokenStep, if_neg h1, if_pos h2,
          List.filter_cons, h2]
        simpa using ih pre b
      · simp only [List.foldl_cons, setupTokenStep, if_neg h1, if_neg h2,
          List.filter_cons]
        rw [ih (pre ++ [Action.literal t]) b]
        simp [h1, h2]

/-- Mapped literal attempts never count as DHCP requests. -/
theorem countP_dhcpReq_mapped (ts : List String) :
    ((ts.map Action.literal).countP fun a => decide (a = Action.dhcpReq)) =
      0 := by
  rw [List.countP_eq_zero]
  intro a ha
  rcases List.mem_map.mp ha with ⟨t, _, rfl⟩
  simp

/-- The literal attempts arising from the filtered token list never
target the token `"dhcp"`. -/
theorem countP_literal_dhcp_filtered (ts : List String) :
    (((ts.filter fun t =>
        decide (t ≠ "addrconf") && decide (t ≠ "dhcp")).map
          Action.literal).countP
      fun a => decide (a = Action.literal "dhcp")) = 0 := by
  rw [List.countP_eq_zero]
  intro a ha
  rcases List.mem_map.mp ha with ⟨t, htmem, rfl⟩
  have hcond := List.of_mem_filter htmem
  simp only [Bool.and_eq_true, decide_eq_true_eq] at hcond
  simp only [decide_eq_true_eq, Action.literal.injEq]
  exact hcond.2

/-- C10: for every configured interface, a DHCP request is attempted if
and only if the raw comma-separated address string contains `"dhcp"` as
a substring anywhere (a `strstr` on the unsplit string, not a per-token
comparison); at most one DHCP request is made per interface no matter
how many dhcp tokens appear; the DHCP request precedes every literal
application (the action list starts with it); and tokens exactly equal
to `"dhcp"` are skipped in the literal pass, whose attempts are exactly
the tokens that are neither `"addrconf"` nor `"dhcp"`, in order. -/
theorem c10_dhcp_actions (ipaddrs : String) (o : DhcpOutcome) :
    (lxi_net_setup_iface ipaddrs o).dhcpAttempted =
      strContains ipaddrs "dhcp" ∧
    (lxi_net_setup_iface ipaddrs o).actions =
      (if strContains ipaddrs "dhcp" then [Action.dhcpReq] else []) ++
        (if (lxi_net_setup_iface ipaddrs o).fatal then []
         else ((strtokComma ipaddrs).filter fun t =>
            decide (t ≠ "addrconf") && decide (t ≠ "dhcp")).map
              Action.literal) ∧
    ((lxi_net_setup_iface ipaddrs o).actions.countP
      fun a => decide (a = Action.dhcpReq)) ≤ 1 ∧
    ((lxi_net_setup_iface ipaddrs o).actions.countP
      fun a => decide (a = Action.literal "dhcp")) = 0 := by
  have key :
      (lxi_net_setup_iface ipaddrs o).dhcpAttempted =
        strContains ipaddrs "dhcp" ∧
      (lxi_net_setup_iface ipaddrs o).actions =
        (if strContains ipaddrs "dhcp" then [Action.dhcpReq] else []) ++
          (if (lxi_net_setup_iface ipaddrs o).fatal then []
           else ((strtokComma ipaddrs).filter fun t =>
              decide (t ≠ "addrconf") && decide (t ≠ "dhcp")).map
                Action.literal) := by
    cases hatt : strContains ipaddrs "dhcp" with
    | false =>
      simp [lxi_net_setup_iface, hatt, setupTokenFold]
    | true =>
      cases hfat : (lxi_iface_dhcp false o).fatal with
      | false =>
        simp [lxi_net_setup_iface, hatt, hfat, setupTokenFold]
      | true =>
        simp [lxi_net_setup_iface, hatt, hfat]
  refine ⟨key.1, key.2, ?_, ?_⟩
  · rw [key.2, List.countP_append]
    have h2 : ((if (lxi_net_setup_iface ipaddrs o).fatal then []
        else ((strtokComma ipaddrs).filter fun t =>
          decide (t ≠ "addrconf") && decide (t ≠ "dhcp")).map
            Action.literal).countP fun a => decide (a = Action.dhcpReq)) =
          0 := by
      cases (lxi_net_setup_iface ipaddrs o).fatal
      · exact countP_dhcpReq_mapped
          ((strtokComma ipaddrs).filter fun t =>
            decide (t ≠ "addrconf") && decide (t ≠ "dhcp"))
      · simp
    rw [h2]
    cases strContains ipaddrs "dhcp" <;> simp
  · rw [key.2, List.countP_append]
    have h1 : ((if strContains ipaddrs "dhcp" then [Action.dhcpReq]
        else []).countP fun a => decide (a = Action.literal "dhcp")) = 0 := by
      cases strContains ipaddrs "dhcp" <;> simp
    rw [h1]
    cases (lxi_net_setup_iface ipaddrs o).fatal
    · rw [Nat.zero_add]
      exact countP_literal_dhcp_filtered (strtokComma ipaddrs)
    · simp

/-- C7: when the DHCP request for an interface fails in the
request/reply exchange — the request cannot be allocated, the IPC
request fails or times out, or the reply carries a non-zero return
code — while the dhcpagent itself did start, the interface's
`first_ipv4_configured` flag is left unchanged (still false), the
failure is only warned about (not fatal), and the literal-address pass
for that interface still proceeds over all surviving tokens. -/
theorem c7_dhcp_failure_nonfatal (ipaddrs : String) (o : DhcpOutcome)
    (hc : strContains ipaddrs "dhcp" = true)
    (hg : o.getifOk = true) (ha : o.agentStartOk = true)
    (hf : o.allocOk = false ∨ o.makeReqErr ≠ 0 ∨ o.replyRc ≠ 0) :
    (lxi_net_setup_iface ipaddrs o).ficpAfterDhcp = false ∧
    (lxi_net_setup_iface ipaddrs o).fatal = false ∧
    (lxi_net_setup_iface ipaddrs o).dhcpWarned = true ∧
    (lxi_net_setup_iface ipaddrs o).actions =
      Action.dhcpReq :: ((strtokComma ipaddrs).filter fun t =>
        decide (t ≠ "addrconf") && decide (t ≠ "dhcp")).map
          Action.literal := by
  have hd : lxi_iface_dhcp false o = ⟨(lxi_iface_dhcp false o).ret, false,
      false⟩ ∧ (lxi_iface_dhcp false o).ret ≠ 0 := by
    unfold lxi_iface_dhcp
    rw [if_neg (by simp [hg]), if_neg (by simp [ha])]
    by_cases h1 : o.allocOk = false
    · rw [if_pos h1]
      exact ⟨rfl, by decide⟩
    · rw [if_neg h1]
      by_cases h2 : o.makeReqErr ≠ 0
      · rw [if_pos h2]
        exact ⟨rfl, by decide⟩
      · rw [if_neg h2]
        have h3 : o.replyRc ≠ 0 := by
          rcases hf with h | h | h
          · exact absurd h h1
          · exact absurd h h2
          · exact h
        rw [if_pos h3]
        exact ⟨rfl, h3⟩
  have hfat : (lxi_iface_dhcp false o).fatal = false := by
    rw [hd.1]
  have hficp : (lxi_iface_dhcp false o).ficp = false := by
    rw [hd.1]
  refine ⟨?_, ?_, ?_, ?_⟩
  · simp [lxi_net_setup_iface, hc, hfat, hficp]
  · simp [lxi_net_setup_iface, hc, hfat]
  · simp [lxi_net_setup_iface, hc, hfat, hd.2]
  · simp [lxi_net_setup_iface, hc, hfat, setupTokenFold]

/-- C7 witness: on `ips = "dhcp,10.0.0.5/24"` with a DHCP request whose
IPC exchange fails (return 4, i.e. a timeout-class failure), the flag
stays false, the run is not fatal, the failure is warned, and the
literal pass still applies `"10.0.0.5/24"`. -/
theorem c7_dhcp_failure_nonfatal_witness :
    (lxi_net_setup_iface "dhcp,10.0.0.5/24"
        ⟨true, true, true, 4, 0⟩).ficpAfterDhcp = false ∧
    (lxi_net_setup_iface "dhcp,10.0.0.5/24"
        ⟨true, true, true, 4, 0⟩).fatal = false ∧
    (lxi_net_setup_iface "dhcp,10.0.0.5/24"
        ⟨true, true, true, 4, 0⟩).dhcpWarned = true ∧
    (lxi_net_setup_iface "dhcp,10.0.0.5/24"
        ⟨true, true, true, 4, 0⟩).actions =
      [Action.dhcpReq, Action.literal "10.0.0.5/24"] := by
  refine ⟨(c7_dhcp_failure_nonfatal "dhcp,10.0.0.5/24" _ (by decide) rfl rfl
      (Or.inr (Or.inl (by decide)))).1,
    (c7_dhcp_failure_nonfatal "dhcp,10.0.0.5/24" _ (by decide) rfl rfl
      (Or.inr (Or.inl (by decide)))).2.1,
    (c7_dhcp_failure_nonfatal "dhcp,10.0.0.5/24" _ (by decide) rfl rfl
      (Or.inr (Or.inl (by decide)))).2.2.1,
    ((c7_dhcp_failure_nonfatal "dhcp,10.0.0.5/24" _ (by decide) rfl rfl
      (Or.inr (Or.inl (by decide)))).2.2.2).trans (by decide)⟩

end LxInit
